import Mathlib

/-
  Verification of the command-line tool `netOnZeroDXC_diagram`
  (file src/netOnZeroDXC_diagram.cpp of the NetOnZeroDXC package).

  The embedding below translates the source file into Lean:
  * command-line option parsing (`netOnZeroDXC_xc_parse_options`),
  * input validation (`netOnZeroDXC_xc_check_sequences`),
  * the diagram-shape construction and the trial loops of `main`.

  Sequence values are modelled as rationals.  Machine integers: `int`
  values are modelled as `Int` (the source never overflows them on the
  inputs considered), the `unsigned int` seed counter is modelled as a
  natural number reduced modulo 2^32 at each arithmetic step, and
  `size_t` arithmetic is modelled as `Int.emod 2^64` where the source
  mixes signed and unsigned operands.

  The core numerical routines (`netOnZeroDXC_compute_cdiagram`,
  `netOnZeroDXC_update_pdiagram`, the surrogate generator) live in
  headers that are not part of the sources; where a claim needs them
  they are modelled from the spec, as stated in their doc comments.
-/

/-! ## Model of C `atoi` -/

/-- Accumulate a leading run of decimal digits, as C `atoi` does after
the optional sign; stops at the first non-digit. -/
def atoiDigits : List Char → ℤ → ℤ
  | [], acc => acc
  | c :: rest, acc =>
    if c.isDigit then atoiDigits rest (acc * 10 + ((c.toNat : ℤ) - 48)) else acc

/-- Model of C `atoi`: skip leading whitespace, optional sign, then a
run of digits; any other input contributes 0.  (Overflow of `int` is
undefined behaviour in C and is not modelled; all inputs considered
are small.) -/
def atoiModel (s : String) : ℤ :=
  match s.toList.dropWhile Char.isWhitespace with
  | '-' :: rest => - atoiDigits rest 0
  | '+' :: rest => atoiDigits rest 0
  | l => atoiDigits l 0

/-! ## Option parsing (source lines 237-315) -/

/-- The local variables of `main` that `netOnZeroDXC_xc_parse_options`
receives by reference (source lines 58-68 for the initial values). -/
structure ParseState where
  read_from_file : Bool
  write_to_file : Bool
  print_corr_diagram : Bool
  compute_pvalue_diagram : Bool
  enable_parallel_computing : Bool
  index_a : ℤ
  index_b : ℤ
  tau : ℤ
  W : ℤ
  L : ℤ
  M : ℤ
  input_filename : String
  output_filename : String
  separator_char : Char
deriving DecidableEq

/-- Initial values set by `main` (source lines 58-68):
`nr_surrogates = 100`, all indices and geometry `-1`, separator 't'. -/
def initialParseState : ParseState :=
  ⟨false, false, false, false, false, -1, -1, -1, -1, -1, 100, "", "", 't'⟩

/-- Result of option parsing.  `helpExit` models the `exit(0)` reached
through `-h`; `outOfArgs` models the undefined behaviour of reading
past `argv` when a flag's argument is missing. -/
inductive ParseResult where
  | ok (st : ParseState)
  | error
  | helpExit
  | outOfArgs
deriving DecidableEq

/-- The `while (n < argc)` dispatch loop of
`netOnZeroDXC_xc_parse_options` (source lines 241-287).  Unknown
tokens are skipped; a flag found with its argument(s) missing makes
the C code read `argv[argc]`, modelled as `outOfArgs`. -/
def parseLoop : List String → ParseState → ParseResult
  | [], st => ParseResult.ok st
  | "-n" :: a :: b :: rest, st =>
      parseLoop rest { st with index_a := atoiModel a, index_b := atoiModel b }
  | "-i" :: f :: rest, st =>
      parseLoop rest { st with read_from_file := true, input_filename := f }
  | "-o" :: f :: rest, st =>
      parseLoop rest { st with write_to_file := true, output_filename := f }
  | "-s" :: f :: rest, st =>
      parseLoop rest { st with separator_char := f.toList.headD (Char.ofNat 0) }
  | "-parallel" :: rest, st =>
      parseLoop rest { st with enable_parallel_computing := true }
  | "-C" :: rest, st | "-c" :: rest, st =>
      parseLoop rest { st with print_corr_diagram := true }
  | "-p" :: rest, st =>
      parseLoop rest { st with compute_pvalue_diagram := true }
  | "-W" :: v :: rest, st => parseLoop rest { st with W := atoiModel v }
  | "-L" :: v :: rest, st => parseLoop rest { st with L := atoiModel v }
  | "-M" :: v :: rest, st => parseLoop rest { st with M := atoiModel v }
  | "-tau" :: v :: rest, st => parseLoop rest { st with tau := atoiModel v }
  | "-h" :: _, _ | "--help" :: _, _ => ParseResult.helpExit
  | ["-n", _], _ | ["-n"], _ | ["-i"], _ | ["-o"], _ | ["-s"], _
  | ["-W"], _ | ["-L"], _ | ["-M"], _ | ["-tau"], _ => ParseResult.outOfArgs
  | _ :: rest, st => parseLoop rest st

/-- `netOnZeroDXC_xc_parse_options` (source lines 237-315): run the
dispatch loop from the initial state, fix up the two mode flags
(lines 289-292), validate column numbers, `W` and `L`
(lines 294-305) - note that `M` (`nr_surrogates`) is never validated -
and translate the separator character (lines 306-312). -/
def netOnZeroDXC_xc_parse_options (args : List String) : ParseResult :=
  match parseLoop args initialParseState with
  | ParseResult.ok st0 =>
    let st1 :=
      if !st0.compute_pvalue_diagram && !st0.print_corr_diagram then
        { st0 with compute_pvalue_diagram := true }
      else if st0.compute_pvalue_diagram && st0.print_corr_diagram then
        { st0 with print_corr_diagram := false }
      else st0
    if st1.index_a ≤ 0 ∨ st1.index_b ≤ 0 then ParseResult.error
    else if st1.W ≤ 0 then ParseResult.error
    else if st1.L ≤ 0 then ParseResult.error
    else
      let sep := if st1.separator_char = 's' then ' '
        else if st1.separator_char = 'c' then ',' else '\t'
      ParseResult.ok { st1 with separator_char := sep }
  | r => r

/-! ## Sequence validation (source lines 317-335) -/

/-- Conversion of a C `int` value to `size_t` (reduction modulo 2^64),
as happens in the mixed comparisons and arithmetic of
`netOnZeroDXC_xc_check_sequences`. -/
def usize (i : ℤ) : ℤ := i.emod 18446744073709551616

/-- Result of `netOnZeroDXC_xc_check_sequences`: `error` is the
nonzero return (which makes `main` exit), `ok newL` is the zero return
with the possibly reduced base width written back through the `int &`
reference, and `outOfRange` marks the undefined behaviour of
`sequences[na]` when the index equals the vector's size. -/
inductive CheckResult where
  | error
  | ok (newL : ℤ)
  | outOfRange
deriving DecidableEq

/-- `netOnZeroDXC_xc_check_sequences` (source lines 317-335).
The bounds test compares the 1-based column numbers against
`sequences.size()` (C mixed signed/unsigned comparison, hence `usize`),
then the geometry test reads `sequences[na]` - the 1-based number used
directly as a 0-based index.  The `size_t` subtraction
`sequences[na].size() - L*W` wraps modulo 2^64 when `L*W` exceeds the
length; the subsequent division is `size_t` division by `(size_t)L`
(division by zero, unreachable from `main`, is modelled as Lean's
division by zero).  Finally an odd `L` is reduced by one. -/
def netOnZeroDXC_xc_check_sequences (sequences : List (List ℚ))
    (na nb W L tau : ℤ) : CheckResult :=
  if usize na > (sequences.length : ℤ) ∨ usize nb > (sequences.length : ℤ) then
    CheckResult.error
  else
    match sequences[(usize na).toNat]? with
    | none => CheckResult.outOfRange
    | some row =>
      let diff := ((row.length : ℤ) - L * W).emod 18446744073709551616
      let q := diff / usize L
      if q - (if tau > 0 then tau else 0) < 1 then CheckResult.error
      else if L % 2 ≠ 0 then CheckResult.ok (L - 1) else CheckResult.ok L

/-! ## The window-center loop of `main` (source lines 109-119) -/

/-- One `for (k = start; k < bound; k = k + L)` loop, collecting the
successive values of `k`.  Structural recursion on a fuel argument so
that the definition reduces in the kernel; `centerLoop` below supplies
enough fuel for the whole iteration space. -/
def centerLoopAux (L : ℕ) : ℕ → ℕ → ℕ → List ℕ
  | 0, _, _ => []
  | fuel + 1, bound, k =>
    if k < bound then k :: centerLoopAux L fuel bound (k + L) else []

/-- The centers visited by the loop `for (k = start; k < bound;
k = k + L)`.  For `L = 0` the C loop (reachable only through the
odd-`L` input 1, reduced to 0 by validation) starts at `k = -1`, which
the mixed comparison turns into a huge unsigned value, so the body
never runs; the guard returns `[]` accordingly. -/
def centerLoop (bound L k : ℕ) : List ℕ :=
  if 0 < L then centerLoopAux L (bound + 1) bound k else []

/-- The center grid of `main` (source lines 111-117): `k` runs from
`L*W/2 - 1` up to, exclusive, `N - L*W/2`, minus `tau` when
`tau > 0`, stepping by `L`. -/
def mainCenters (N L W : ℕ) (tau : ℤ) : List ℕ :=
  centerLoop (N - L * W / 2 - (if 0 < tau then tau.toNat else 0)) L (L * W / 2 - 1)

/-- `dummy_vector` of `main` (source lines 109-117): one `0` pushed
per visited center. -/
def mainDummyVector (N L W : ℕ) (tau : ℤ) : List ℚ :=
  (mainCenters N L W tau).map (fun _ => (0 : ℚ))

/-! ## Correlation diagram (modelled from the spec) -/

/-- Modelled from the spec: the sub-window `[k - width/2, k + width/2)`
of a sequence, optionally shifted by a delay (spec section 4.1).  A
start index falling below zero is clamped to zero. -/
def windowAt (s : List ℚ) (center halfwidth : ℕ) (shift : ℤ) : List ℚ :=
  (s.drop ((center : ℤ) - (halfwidth : ℤ) + shift).toNat).take (2 * halfwidth)

/-- Modelled from the spec: one cell of the correlation diagram (spec
section 4.1).  `ker` is the scalar correlation kernel (the Pearson
coefficient of two windows); it is kept as a parameter because its
implementation is double-precision floating point in a header that is
not part of the sources, and no claim depends on the cell values.
For `tau > 0` the cell is the mean of the `+tau` and `-tau` shifted
coefficients. -/
def cdiagramCell (ker : List ℚ → List ℚ → ℚ) (sa sb : List ℚ)
    (width k : ℕ) (useDelay : Bool) (tau : ℤ) : ℚ :=
  if useDelay then
    (ker (windowAt sa k (width / 2) tau) (windowAt sb k (width / 2) tau)
      + ker (windowAt sa k (width / 2) (-tau)) (windowAt sb k (width / 2) (-tau))) / 2
  else ker (windowAt sa k (width / 2) 0) (windowAt sb k (width / 2) 0)

/-- Modelled from the spec: `netOnZeroDXC_compute_cdiagram` is declared
in `netOnZeroDXC_algorithm.hpp`, which is not among the sources.  Per
spec section 4.1 it fills, for each row `w` of the table passed by
reference (width `L*(w+1)`), one correlation value per window center of
the common center grid; the grid is the same one `main` uses to size
the table.  Only the cell values change; the row count is that of the
caller's table. -/
def netOnZeroDXC_compute_cdiagram (ker : List ℚ → List ℚ → ℚ)
    (diagram : List (List ℚ)) (sequences : List (List ℚ))
    (ia ib L W : ℕ) (useDelay : Bool) (tau : ℤ) : List (List ℚ) :=
  let sa := sequences.getD ia []
  let sb := sequences.getD ib []
  (List.range diagram.length).map (fun w =>
    (mainCenters sa.length L W tau).map (fun k =>
      cdiagramCell ker sa sb (L * (w + 1)) k useDelay tau))

/-! ## Significance aggregation (modelled from the spec) -/

/-- Modelled from the spec: one row of the p-value update.  For every
cell shared by the three rows, add `1/M` when the surrogate magnitude
meets or exceeds the real magnitude (spec section 4.3; `main` performs
no division after the trials, so each call contributes `1/M`
directly). -/
def updateRow (pr rr sr : List ℚ) (M : ℤ) : List ℚ :=
  pr.zipWith (fun pv rs => if |rs.1| ≤ |rs.2| then pv + 1 / (M : ℚ) else pv)
    (rr.zip sr)

/-- Modelled from the spec: `netOnZeroDXC_update_pdiagram` is declared
in `netOnZeroDXC_algorithm.hpp`, which is not among the sources.  Per
spec section 4.3 it increments, for every cell shared by the p-value
diagram and both input diagrams, the cell by the per-trial exceedance
contribution `1/M` when `|surrogate| ≥ |real|`. -/
def netOnZeroDXC_update_pdiagram (p realCd surr : List (List ℚ)) (M : ℤ) :
    List (List ℚ) :=
  p.zipWith (fun prow rs => updateRow prow rs.1 rs.2 M) (realCd.zip surr)

/-! ## The trial loops of `main` (source lines 149-191) -/

/-- Events recorded by the run model, in program order. -/
inductive Event where
  | computeCDiagram
  | initSurrogateGeneration
  | generateSurrogate (seed : ℕ)
  | updatePDiagram
  | outputCorrDiagram (d : List (List ℚ))
  | outputPValueDiagram (d : List (List ℚ))
deriving DecidableEq

/-- The seeds passed to `netOnZeroDXC_generate_surrogate_sequence`, in
call order, extracted from an event trace. -/
def seedsOf (evs : List Event) : List ℕ :=
  evs.filterMap (fun e =>
    match e with
    | Event.generateSurrogate s => some s
    | _ => none)

/-- The trial loop of `main` (source lines 149-191), running `r` more
trials starting at trial index `i` with current seed value `seed` and
current p-value diagram `p`.  Returns the final seed, the final
p-value diagram and the event trace.

Sequential mode (`par = false`, lines 172-191): the first generation
uses the running seed, which is incremented (as a 32-bit unsigned
value) after each generation.

Parallel mode (`par = true`, lines 150-171): the loop body executes
`seed = seed + 2*i; ...; seed++` on the SHARED seed variable - `seed`
is declared outside the `omp parallel for` and is written outside the
`omp critical` section.  This function models the linearization in
which trial bodies run atomically in increasing index order; under
OpenMP the unsynchronized writes are a data race.

`gen` models the surrogate generator (sequence index, seed); its
output values never matter to the claims. -/
def trialLoop (gen : ℕ → ℕ → List ℚ) (ker : List ℚ → List ℚ → ℚ)
    (ia ib L W : ℕ) (tau M : ℤ) (realCd : List (List ℚ)) (dummy : List ℚ)
    (par : Bool) : ℕ → ℕ → ℕ → List (List ℚ) → ℕ × List (List ℚ) × List Event
  | _, 0, seed, p => (seed, p, [])
  | i, r + 1, seed, p =>
    let s1 := if par then (seed + 2 * i) % 4294967296 else seed
    let sa := gen ia s1
    let s2 := (s1 + 1) % 4294967296
    let sb := gen ib s2
    let surr := netOnZeroDXC_compute_cdiagram ker (List.replicate W dummy)
      [sa, sb] 0 1 L W (decide (0 < tau)) tau
    let p2 := netOnZeroDXC_update_pdiagram p realCd surr M
    let nextSeed := if par then s2 else (s2 + 1) % 4294967296
    let rest := trialLoop gen ker ia ib L W tau M realCd dummy par (i + 1) r nextSeed p2
    (rest.1, rest.2.1,
      Event.generateSurrogate s1 :: Event.generateSurrogate s2 ::
        Event.computeCDiagram :: Event.updatePDiagram :: rest.2.2)

/-! ## The run model of `main` (source lines 56-211) -/

/-- Outcome of a run: a clean process termination with an exit code
and the trace of core events, or undefined behaviour (out-of-range
vector access, reading past `argv`). -/
inductive RunOutcome where
  | terminated (exitCode : ℕ) (events : List Event)
  | undefinedBehavior
deriving DecidableEq

/-- Model of `main` (source lines 56-211) after input loading: parse
the options (exit 1 on error), validate the sequences (exit 1 on
error), build the diagram buffers from the center grid, compute the
real correlation diagram, and either print it and stop (lines
123-141) or run the surrogate trials and print the p-value diagram
(lines 143-208).

The file/stdin loading layer and the file-writing layer are the
excluded collaborators: the loaded matrix is a parameter and writes
are assumed to succeed.  Printing to standard output accesses
`row[0]` of every row (lines 129 and 198), which is undefined
behaviour when a row is empty; the file-writing path does not.
`baseSeed` stands for the `clock()` value of line 149. -/
def mainRun (gen : ℕ → ℕ → List ℚ) (ker : List ℚ → List ℚ → ℚ)
    (args : List String) (sequences : List (List ℚ)) (baseSeed : ℕ) :
    RunOutcome :=
  match netOnZeroDXC_xc_parse_options args with
  | ParseResult.outOfArgs => RunOutcome.undefinedBehavior
  | ParseResult.helpExit => RunOutcome.terminated 0 []
  | ParseResult.error => RunOutcome.terminated 1 []
  | ParseResult.ok st =>
    match netOnZeroDXC_xc_check_sequences sequences st.index_a st.index_b
        st.W st.L st.tau with
    | CheckResult.error => RunOutcome.terminated 1 []
    | CheckResult.outOfRange => RunOutcome.undefinedBehavior
    | CheckResult.ok L2 =>
      let ia := (st.index_a - 1).toNat
      let ib := (st.index_b - 1).toNat
      let L := L2.toNat
      let W := st.W.toNat
      let N := (sequences.getD ia []).length
      let dummy := mainDummyVector N L W st.tau
      let corr := netOnZeroDXC_compute_cdiagram ker (List.replicate W dummy)
        sequences ia ib L W (decide (0 < st.tau)) st.tau
      if st.print_corr_diagram then
        if !st.write_to_file && corr.any List.isEmpty then
          RunOutcome.undefinedBehavior
        else
          RunOutcome.terminated 0 [Event.computeCDiagram, Event.outputCorrDiagram corr]
      else
        let res := trialLoop gen ker ia ib L W st.tau st.M corr dummy
          st.enable_parallel_computing 0 st.M.toNat baseSeed (List.replicate W dummy)
        if !st.write_to_file && res.2.1.any List.isEmpty then
          RunOutcome.undefinedBehavior
        else
          RunOutcome.terminated 0
            (Event.computeCDiagram :: Event.initSurrogateGeneration ::
              Event.initSurrogateGeneration ::
              (res.2.2 ++ [Event.outputPValueDiagram res.2.1]))

/-- The surrogate count accepted by option parsing, when parsing
succeeds. -/
def parsedM (args : List String) : Option ℤ :=
  match netOnZeroDXC_xc_parse_options args with
  | ParseResult.ok st => some st.M
  | _ => none

/-- All cells of a rectangular table satisfy a predicate. -/
def allCells (P : ℚ → Prop) (d : List (List ℚ)) : Prop :=
  ∀ row ∈ d, ∀ x ∈ row, P x

instance (P : ℚ → Prop) [DecidablePred P] (d : List (List ℚ)) :
    Decidable (allCells P d) := by
  unfold allCells; infer_instance

/-! ## Length of the center loop -/

/-- Length of one `for (k = start; k < bound; k = k + L)` iteration
space, given enough fuel: the number of visited centers is
`ceil((bound - k) / L) = (bound - k + L - 1) / L`. -/
theorem centerLoopAux_length (L : ℕ) (hL : 0 < L) :
    ∀ fuel bound k, bound - k < fuel →
      (centerLoopAux L fuel bound k).length = (bound - k + L - 1) / L := by
  intro fuel
  induction fuel with
  | zero => intro bound k h; omega
  | succ fuel ih =>
    intro bound k h
    rw [centerLoopAux]
    split
    · rename_i hk
      rw [List.length_cons, ih bound (k + L) (by omega)]
      have h1 : bound - k + L - 1 = (bound - k - 1) + L := by omega
      rw [h1, Nat.add_div_right _ hL]
      rcases le_or_lt L (bound - k) with hle | hlt
      · have h2 : bound - (k + L) + L - 1 = bound - k - 1 := by omega
        rw [h2]
      · have h2 : bound - (k + L) = 0 := by omega
        rw [h2]
        have e1 : (0 + L - 1) / L = 0 := Nat.div_eq_of_lt (by omega)
        have e2 : (bound - k - 1) / L = 0 := Nat.div_eq_of_lt (by omega)
        rw [e1, e2]
    · rename_i hk
      have h0 : bound - k = 0 := by omega
      rw [List.length_nil, h0]
      have e1 : (0 + L - 1) / L = 0 := Nat.div_eq_of_lt (by omega)
      rw [e1]

/-- Length of the center loop. -/
theorem centerLoop_length (bound L k : ℕ) (hL : 0 < L) :
    (centerLoop bound L k).length = (bound - k + L - 1) / L := by
  rw [centerLoop, if_pos hL]
  exact centerLoopAux_length L hL (bound + 1) bound k (by omega)

/-- Number of centers produced by the loop of `main`, for an even
positive `L`, positive `W` and enough samples:
`(N - L*W - (tau>0 ? tau : 0)) / L + 1`. -/
theorem mainCenters_length (N L W : ℕ) (tau : ℤ)
    (hL2 : L % 2 = 0) (hL : 0 < L) (hW : 0 < W)
    (hN : L * W + (if 0 < tau then tau.toNat else 0) ≤ N) :
    (mainCenters N L W tau).length
      = (N - L * W - (if 0 < tau then tau.toNat else 0)) / L + 1 := by
  obtain ⟨c, hc⟩ : ∃ c, L = 2 * c := ⟨L / 2, by omega⟩
  have hmw : L * W = 2 * (c * W) := by rw [hc]; ring
  simp only [mainCenters]
  rw [centerLoop_length _ _ _ hL]
  set t := (if 0 < tau then tau.toNat else 0) with ht
  set q := c * W with hq
  have hq1 : 0 < q := Nat.mul_pos (by omega) hW
  rw [hmw] at hN ⊢
  have h2q : 2 * q / 2 = q := by omega
  rw [h2q]
  have e1 : N - q - t - (q - 1) + L - 1 = (N - 2 * q - t) + L := by omega
  rw [e1, Nat.add_div_right _ hL]

/-! ## Claim C1 -/

/-- C1 counterexample: with two sequences of length N = 100, L = 10,
W = 3, tau = 0 (a valid input), every row of the correlation diagram
built by `main` and `netOnZeroDXC_compute_cdiagram` has length 8,
while the claimed formula `floor((N - L*W)/L) - (tau>0?tau:0)`
yields 7. -/
theorem C1_row_length_formula_counterexample :
    ((netOnZeroDXC_compute_cdiagram (fun _ _ => 0)
        (List.replicate 3 (mainDummyVector 100 10 3 0))
        [List.replicate 100 (0 : ℚ), List.replicate 100 0] 0 1 10 3 false 0).map
      List.length = [8, 8, 8])
    ∧ ¬ ((100 - 10 * 3) / 10 - 0 = (8 : ℤ)) := by
  decide

/-- C1 (amended): for every valid input - `L` even and positive, `W`
positive, two sequences, `tau` as given, and at least
`L*W + (tau>0?tau:0)` samples - the correlation diagram built by
`main` and `netOnZeroDXC_compute_cdiagram` has exactly `W` rows, and
every row has the identical length
`K = floor((N - L*W - (tau>0?tau:0))/L) + 1`; the same `K` results
from the center loop.  (The claimed formula
`floor((N - L*W)/L) - (tau>0?tau:0)` undercounts the loop.) -/
theorem C1_diagram_shape_amended (ker : List ℚ → List ℚ → ℚ)
    (sequences : List (List ℚ)) (ia ib L W : ℕ) (tau : ℤ) (N : ℕ)
    (hNa : (sequences.getD ia []).length = N)
    (hL2 : L % 2 = 0) (hL : 0 < L) (hW : 0 < W)
    (hN : L * W + (if 0 < tau then tau.toNat else 0) ≤ N) :
    (netOnZeroDXC_compute_cdiagram ker (List.replicate W (mainDummyVector N L W tau))
        sequences ia ib L W (decide (0 < tau)) tau).length = W
    ∧ (∀ row ∈ netOnZeroDXC_compute_cdiagram ker
          (List.replicate W (mainDummyVector N L W tau))
          sequences ia ib L W (decide (0 < tau)) tau,
        row.length = (N - L * W - (if 0 < tau then tau.toNat else 0)) / L + 1)
    ∧ (mainCenters N L W tau).length
        = (N - L * W - (if 0 < tau then tau.toNat else 0)) / L + 1 := by
  have hlen := mainCenters_length N L W tau hL2 hL hW hN
  refine ⟨?_, ?_, hlen⟩
  · simp [netOnZeroDXC_compute_cdiagram]
  · intro row hrow
    simp only [netOnZeroDXC_compute_cdiagram, List.mem_map] at hrow
    obtain ⟨w, _, rfl⟩ := hrow
    rw [List.length_map, hNa]
    exact hlen

/-- C1 witness: the amended shape statement evaluated at N = 100,
L = 10, W = 3, tau = 0, where the common row length is
(100 - 10*3 - 0)/10 + 1 = 8. -/
theorem C1_diagram_shape_amended_witness :
    (mainCenters 100 10 3 0).length
      = (100 - 10 * 3 - (if (0 : ℤ) < 0 then (0 : ℤ).toNat else 0)) / 10 + 1 :=
  (C1_diagram_shape_amended (fun _ _ => 0)
    [List.replicate 100 (0 : ℚ), List.replicate 100 0] 0 1 10 3 0 100
    (by decide) (by decide) (by decide) (by decide) (by decide)).2.2

/-! ## Claims C2, C3: the parallel loop and the shared seed -/

/-- C2: the parallel loop body executes `seed = seed + 2*i; ...;
seed++` on the shared running seed, so the seed passed to the first
surrogate generation of trial `i` is NOT `base + 2*i`.  Executing the
bodies in index order from base seed 0 with M = 2 trials, the recorded
seeds are `[0, 1, 3, 4]`: trial 1 generates with seed 3, not
`base + 2*1 = 2`. -/
theorem C2_parallel_seed_schedule_shared_counter :
    seedsOf (trialLoop (fun _ _ => []) (fun _ _ => 0) 0 1 2 1 0 2 [] []
        true 0 2 0 []).2.2 = [0, 1, 3, 4]
    ∧ ¬ (0 + 2 * 1 = (3 : ℕ)) := by
  decide

/-- C3: the parallel loop body writes a shared variable other than the
p-value diagram: one iteration of the parallel trial loop, entered
with the shared seed equal to 5, leaves the shared seed equal to 6 -
the worker mutates `seed`, and in the source this write is outside the
`omp critical` section. -/
theorem C3_parallel_body_writes_shared_seed :
    (trialLoop (fun _ _ => []) (fun _ _ => 0) 0 1 2 1 0 2 [] []
        true 0 1 5 [[0]]).1 = 6
    ∧ ¬ (6 = (5 : ℕ)) := by
  decide

/-! ## Claim C8: sequential seed schedule -/

/-- Extracting seeds from a trace starting with a generation event. -/
theorem seedsOf_generate (s : ℕ) (evs : List Event) :
    seedsOf (Event.generateSurrogate s :: evs) = s :: seedsOf evs := rfl

/-- Diagram-computation events carry no seed. -/
theorem seedsOf_compute (evs : List Event) :
    seedsOf (Event.computeCDiagram :: evs) = seedsOf evs := rfl

/-- Aggregator events carry no seed. -/
theorem seedsOf_update (evs : List Event) :
    seedsOf (Event.updatePDiagram :: evs) = seedsOf evs := rfl

/-- Seeds recorded by the sequential trial loop: the `j`-th surrogate
generation (0-based, two per trial) uses the `j`-th successive 32-bit
value after the entry value of the running seed. -/
theorem trialLoop_sequential_seed_get (gen : ℕ → ℕ → List ℚ)
    (ker : List ℚ → List ℚ → ℚ) (ia ib L W : ℕ) (tau M : ℤ)
    (realCd : List (List ℚ)) (dummy : List ℚ) :
    ∀ (r i seed : ℕ) (p : List (List ℚ)) (j : ℕ),
      seed < 4294967296 → j < 2 * r →
      (seedsOf (trialLoop gen ker ia ib L W tau M realCd dummy
          false i r seed p).2.2)[j]?
        = some ((seed + j) % 4294967296) := by
  intro r
  induction r with
  | zero => intro i seed p j h hj; omega
  | succ r ih =>
    intro i seed p j h hj
    simp only [trialLoop]
    simp only [Bool.false_eq_true, if_false]
    rw [seedsOf_generate, seedsOf_generate, seedsOf_compute, seedsOf_update]
    rcases j with _ | j
    · simp [Nat.mod_eq_of_lt h]
    · rcases j with _ | j
      · simp
      · simp only [List.getElem?_cons_succ]
        rw [ih (i + 1) (((seed + 1) % 4294967296 + 1) % 4294967296) _ j
          (Nat.mod_lt _ (by omega)) (by omega)]
        congr 1
        omega

/-- C8: in sequential mode the single running seed is threaded through
the M trials and advances by one immediately after each surrogate
generation, so trial `i` uses seeds `base + 2*i` and `base + 2*i + 1`
(as 32-bit unsigned values), a deterministic schedule given the
initial seed. -/
theorem C8_sequential_seed_schedule (gen : ℕ → ℕ → List ℚ)
    (ker : List ℚ → List ℚ → ℚ) (ia ib L W : ℕ) (tau M : ℤ)
    (realCd : List (List ℚ)) (dummy : List ℚ) (base Mn i : ℕ)
    (p : List (List ℚ)) (hbase : base < 4294967296) (hi : i < Mn) :
    (seedsOf (trialLoop gen ker ia ib L W tau M realCd dummy
        false 0 Mn base p).2.2)[2 * i]?
      = some ((base + 2 * i) % 4294967296)
    ∧ (seedsOf (trialLoop gen ker ia ib L W tau M realCd dummy
        false 0 Mn base p).2.2)[2 * i + 1]?
      = some ((base + 2 * i + 1) % 4294967296) :=
  ⟨trialLoop_sequential_seed_get gen ker ia ib L W tau M realCd dummy
      Mn 0 base p (2 * i) hbase (by omega),
   trialLoop_sequential_seed_get gen ker ia ib L W tau M realCd dummy
      Mn 0 base p (2 * i + 1) hbase (by omega)⟩

/-- C8 witness: base seed 7, two trials; trial 1 generates with seeds
9 and 10. -/
theorem C8_sequential_seed_schedule_witness :
    (seedsOf (trialLoop (fun _ _ => []) (fun _ _ => 0) 0 1 2 1 0 2 [] []
        false 0 2 7 []).2.2)[2 * 1]?
      = some ((7 + 2 * 1) % 4294967296)
    ∧ (seedsOf (trialLoop (fun _ _ => []) (fun _ _ => 0) 0 1 2 1 0 2 [] []
        false 0 2 7 []).2.2)[2 * 1 + 1]?
      = some ((7 + 2 * 1 + 1) % 4294967296) :=
  C8_sequential_seed_schedule (fun _ _ => []) (fun _ _ => 0) 0 1 2 1 0 2 [] []
    7 2 1 [] (by decide) (by decide)

/-! ## Claim C5: odd base width is reduced before the core runs -/

/-- C5: whenever `netOnZeroDXC_xc_check_sequences` succeeds, the base
width written back through the reference is even; an odd input width
has been replaced by its predecessor and an even one is unchanged.
`main` reaches the diagram computation only after a success, so the
core is never invoked with an odd `L`. -/
theorem C5_odd_L_reduced (sequences : List (List ℚ)) (na nb W L tau L2 : ℤ)
    (h : netOnZeroDXC_xc_check_sequences sequences na nb W L tau
      = CheckResult.ok L2) :
    L2 % 2 = 0 ∧ (L % 2 = 1 → L2 = L - 1) ∧ (L % 2 = 0 → L2 = L) := by
  simp only [netOnZeroDXC_xc_check_sequences] at h
  by_cases h1 : usize na > (sequences.length : ℤ)
      ∨ usize nb > (sequences.length : ℤ)
  · rw [if_pos h1] at h; cases h
  · rw [if_neg h1] at h
    cases hseq : sequences[(usize na).toNat]? with
    | none => simp only [hseq] at h; cases h
    | some row =>
      simp only [hseq] at h
      by_cases h2 : ((row.length : ℤ) - L * W).emod 18446744073709551616
          / usize L - (if tau > 0 then tau else 0) < 1
      · rw [if_pos h2] at h; cases h
      · rw [if_neg h2] at h
        by_cases h3 : L % 2 ≠ 0
        · rw [if_pos h3] at h
          cases h
          exact ⟨by omega, by omega, by omega⟩
        · rw [if_neg h3] at h
          cases h
          exact ⟨by omega, by omega, by omega⟩

/-- C5 witness: `L = 11` with 100-sample sequences is reduced to
`L = 10`. -/
theorem C5_odd_L_reduced_witness :
    (10 : ℤ) % 2 = 0 ∧ ((11 : ℤ) % 2 = 1 → (10 : ℤ) = 11 - 1)
      ∧ ((11 : ℤ) % 2 = 0 → (10 : ℤ) = 11) :=
  C5_odd_L_reduced [List.replicate 100 (0 : ℚ), List.replicate 100 0]
    1 2 1 11 0 10 (by decide)

/-! ## Claim C6: the geometry check reads the wrong sequence -/

/-- C6: the geometry check of `netOnZeroDXC_xc_check_sequences` indexes
the loaded sequences with the 1-based column number `na` itself.
(a) When `na` equals the number of loaded sequences the bounds check
passes but `sequences[na]` is one position past the last sequence:
out of range.  (b) For any two matrices of the same size that agree at
0-based row `na` - the sequence AFTER the selected one, `na - 1` - the
check result is identical, so the selected sequence's own length is
never consulted. -/
theorem C6_geometry_check_off_by_one :
    (∀ (sequences : List (List ℚ)) (na nb W L tau : ℤ),
      1 ≤ na → na = (sequences.length : ℤ) →
      1 ≤ nb → nb ≤ (sequences.length : ℤ) →
      (sequences.length : ℤ) < 18446744073709551616 →
      netOnZeroDXC_xc_check_sequences sequences na nb W L tau
        = CheckResult.outOfRange)
    ∧ (∀ (s t : List (List ℚ)) (na nb W L tau : ℤ),
      s.length = t.length →
      s[(usize na).toNat]? = t[(usize na).toNat]? →
      netOnZeroDXC_xc_check_sequences s na nb W L tau
        = netOnZeroDXC_xc_check_sequences t na nb W L tau) := by
  constructor
  · intro sequences na nb W L tau hna hnae hnb hnble hlen64
    have hua : usize na = na := Int.emod_eq_of_lt (by omega) (by omega)
    have hub : usize nb = nb := Int.emod_eq_of_lt (by omega) (by omega)
    simp only [netOnZeroDXC_xc_check_sequences]
    rw [hua, hub, if_neg (by omega)]
    have hnone : sequences[na.toNat]? = none := List.getElem?_eq_none (by omega)
    rw [hnone]
  · intro s t na nb W L tau hlen hrow
    simp only [netOnZeroDXC_xc_check_sequences]
    rw [hlen, hrow]

/-- C6 witness: with two loaded sequences, `na = 2` passes the bounds
check but the geometry access is out of range; and with `na = 1` the
check gives the same answer whether the selected first sequence is
empty or not, because only the second sequence is consulted. -/
theorem C6_geometry_check_off_by_one_witness :
    (netOnZeroDXC_xc_check_sequences [[(0 : ℚ)], [0]] 2 1 1 2 0
      = CheckResult.outOfRange)
    ∧ (netOnZeroDXC_xc_check_sequences [[], List.replicate 30 (0 : ℚ)]
        1 2 1 10 0
      = netOnZeroDXC_xc_check_sequences
        [[(1 : ℚ), 2, 3], List.replicate 30 0] 1 2 1 10 0) :=
  ⟨C6_geometry_check_off_by_one.1 [[(0 : ℚ)], [0]] 2 1 1 2 0
      (by decide) (by decide) (by decide) (by decide) (by decide),
   C6_geometry_check_off_by_one.2 [[], List.replicate 30 (0 : ℚ)]
      [[(1 : ℚ), 2, 3], List.replicate 30 0] 1 2 1 10 0
      (by decide) (by decide)⟩

/-! ## Claim C7: p-value bounds -/

/-- One aggregation step moves every cell of a row from `[a, b]` to
`[a, b + 1/M]`: a cell either keeps its value or gains the exceedance
contribution `1/M`. -/
theorem updateRow_bound (M : ℤ) (hM : 1 ≤ M) (a b : ℚ) :
    ∀ (pr rr sr : List ℚ), (∀ x ∈ pr, a ≤ x ∧ x ≤ b) →
      ∀ x ∈ updateRow pr rr sr M, a ≤ x ∧ x ≤ b + 1 / (M : ℚ) := by
  have hM1 : (1 : ℚ) ≤ (M : ℚ) := by exact_mod_cast hM
  have hinv : 0 ≤ 1 / (M : ℚ) := by positivity
  intro pr
  induction pr with
  | nil => intro rr sr h x hx; simp [updateRow] at hx
  | cons pv pt ih =>
    intro rr sr h x hx
    cases rr with
    | nil => simp [updateRow] at hx
    | cons rv rt =>
      cases sr with
      | nil => simp [updateRow] at hx
      | cons sv st =>
        have hpv := h pv (List.mem_cons_self pv pt)
        simp only [updateRow, List.zip_cons_cons, List.zipWith_cons_cons] at hx
        rcases List.mem_cons.mp hx with rfl | hx
        · split
          · exact ⟨by linarith [hpv.1], by linarith [hpv.2]⟩
          · exact ⟨hpv.1, by linarith [hpv.2]⟩
        · exact ih rt st (fun y hy => h y (List.mem_cons_of_mem _ hy)) x hx

/-- One aggregation step moves every cell of the p-value diagram from
`[a, b]` to `[a, b + 1/M]`. -/
theorem update_pdiagram_bound (M : ℤ) (hM : 1 ≤ M) (a b : ℚ) :
    ∀ (p realCd surr : List (List ℚ)), allCells (fun x => a ≤ x ∧ x ≤ b) p →
      allCells (fun x => a ≤ x ∧ x ≤ b + 1 / (M : ℚ))
        (netOnZeroDXC_update_pdiagram p realCd surr M) := by
  intro p
  induction p with
  | nil => intro r s h row hrow; simp [netOnZeroDXC_update_pdiagram] at hrow
  | cons ph pt ih =>
    intro r s h row hrow
    cases r with
    | nil => simp [netOnZeroDXC_update_pdiagram] at hrow
    | cons rh rt =>
      cases s with
      | nil => simp [netOnZeroDXC_update_pdiagram] at hrow
      | cons sh st =>
        simp only [netOnZeroDXC_update_pdiagram, List.zip_cons_cons,
          List.zipWith_cons_cons] at hrow
        rcases List.mem_cons.mp hrow with rfl | hrow
        · exact updateRow_bound M hM a b ph rh sh (h ph (List.mem_cons_self ph pt))
        · exact ih rt st (fun q hq => h q (List.mem_cons_of_mem _ hq)) row hrow

/-- After folding any list of surrogate diagrams into a p-value
diagram whose cells lie in `[0, b]`, the cells lie in
`[0, b + count/M]`. -/
theorem foldl_update_bound (M : ℤ) (hM : 1 ≤ M) (realCd : List (List ℚ)) :
    ∀ (ts : List (List (List ℚ))) (p : List (List ℚ)) (b : ℚ),
      allCells (fun x => 0 ≤ x ∧ x ≤ b) p →
      allCells (fun x => 0 ≤ x ∧ x ≤ b + (ts.length : ℚ) / (M : ℚ))
        (ts.foldl (fun acc s => netOnZeroDXC_update_pdiagram acc realCd s M) p) := by
  intro ts
  induction ts with
  | nil =>
    intro p b hp row hrow x hx
    refine ⟨(hp row hrow x hx).1, ?_⟩
    have := (hp row hrow x hx).2
    simpa using this
  | cons t ts ih =>
    intro p b hp
    have h1 := update_pdiagram_bound M hM 0 b p realCd t hp
    have h2 := ih (netOnZeroDXC_update_pdiagram p realCd t M) (b + 1 / (M : ℚ)) h1
    rw [List.foldl_cons]
    intro row hrow x hx
    have hbx := h2 row hrow x hx
    refine ⟨hbx.1, ?_⟩
    have hM1 : (1 : ℚ) ≤ (M : ℚ) := by exact_mod_cast hM
    have hM0 : (M : ℚ) ≠ 0 := by linarith
    have heq : b + 1 / (M : ℚ) + (ts.length : ℚ) / (M : ℚ)
        = b + ((t :: ts).length : ℚ) / (M : ℚ) := by
      rw [List.length_cons]
      push_cast
      field_simp
      ring
    linarith [hbx.2, heq.le]

/-- C7: for every `M ≥ 1`, after all `M` trials have been folded into
the p-value diagram that `main` initializes from the (all-zero) center
grid, every cell of the finalized diagram lies in `[0, 1]` - for any
real diagram, any surrogate diagrams and any geometry. -/
theorem C7_pvalue_bounds (M : ℤ) (hM : 1 ≤ M) (realCd : List (List ℚ))
    (surrs : List (List (List ℚ))) (hlen : surrs.length = M.toNat)
    (W N L : ℕ) (tau : ℤ) :
    allCells (fun x => 0 ≤ x ∧ x ≤ 1)
      (surrs.foldl (fun p s => netOnZeroDXC_update_pdiagram p realCd s M)
        (List.replicate W (mainDummyVector N L W tau))) := by
  have hp0 : allCells (fun x => 0 ≤ x ∧ x ≤ 0)
      (List.replicate W (mainDummyVector N L W tau)) := by
    intro row hrow x hx
    have hrow2 := List.eq_of_mem_replicate hrow
    subst hrow2
    rcases List.mem_map.mp hx with ⟨k, _, rfl⟩
    exact ⟨le_refl 0, le_refl 0⟩
  have h := foldl_update_bound M hM realCd surrs _ 0 hp0
  intro row hrow x hx
  have hbx := h row hrow x hx
  refine ⟨hbx.1, ?_⟩
  have hM1 : (1 : ℚ) ≤ (M : ℚ) := by exact_mod_cast hM
  have hM0 : (M : ℚ) ≠ 0 := by linarith
  have hlenM : ((surrs.length : ℚ)) = (M : ℚ) := by
    rw [hlen]
    have h2 : ((M.toNat : ℤ) : ℚ) = ((M : ℤ) : ℚ) := by
      rw [Int.toNat_of_nonneg (by omega)]
    exact_mod_cast h2
  have hone : (0 : ℚ) + (surrs.length : ℚ) / (M : ℚ) = 1 := by
    rw [hlenM, zero_add, div_self hM0]
  linarith [hbx.2, hone.le]

/-- C7 witness: one trial, a 1x2 diagram; the exceedance in the first
cell contributes 1/1, the second cell stays 0, both within [0, 1]. -/
theorem C7_pvalue_bounds_witness :
    allCells (fun x => 0 ≤ x ∧ x ≤ 1)
      ([[[(5 : ℚ), 0]]].foldl
        (fun p s => netOnZeroDXC_update_pdiagram p [[(0 : ℚ), 3]] s 1)
        (List.replicate 1 (mainDummyVector 4 2 1 0))) :=
  C7_pvalue_bounds 1 (by decide) [[(0 : ℚ), 3]] [[[(5 : ℚ), 0]]]
    (by decide) 1 4 2 0

/-! ## Output rows are never empty when the center grid is nonempty -/

/-- Every row of a computed correlation diagram is the center grid
mapped through the kernel, so no row is empty when the grid is not. -/
theorem cdiagram_any_isEmpty (ker : List ℚ → List ℚ → ℚ)
    (diagram sequences : List (List ℚ)) (ia ib L W : ℕ) (u : Bool) (tau : ℤ)
    (h : mainCenters ((sequences.getD ia []).length) L W tau ≠ []) :
    (netOnZeroDXC_compute_cdiagram ker diagram sequences ia ib L W u tau).any
      List.isEmpty = false := by
  rw [List.any_eq_false]
  intro row hrow
  simp only [netOnZeroDXC_compute_cdiagram, List.mem_map] at hrow
  obtain ⟨w, _, rfl⟩ := hrow
  simp only [List.isEmpty_iff, List.map_eq_nil_iff]
  exact h

/-- The initial p-value diagram built by `main` has no empty row when
the center grid is nonempty. -/
theorem replicate_dummy_any_isEmpty (N L W : ℕ) (tau : ℤ)
    (h : mainCenters N L W tau ≠ []) :
    (List.replicate W (mainDummyVector N L W tau)).any List.isEmpty = false := by
  rw [List.any_eq_false]
  intro row hrow
  rw [List.eq_of_mem_replicate hrow]
  simp only [mainDummyVector, List.isEmpty_iff, List.map_eq_nil_iff]
  exact h

/-! ## Claim C10: correlation-only runs stop before any surrogate work -/

/-- C10: when only the correlation diagram is requested
(`print_corr_diagram` set after parsing) and validation succeeds, the
run computes the real diagram once, outputs it, and terminates with
exit status 0; the event trace contains no surrogate initialization,
no surrogate generation and no aggregator call. -/
theorem C10_corr_only_stops_early
    (gen : ℕ → ℕ → List ℚ) (ker : List ℚ → List ℚ → ℚ)
    (args : List String) (sequences : List (List ℚ)) (base : ℕ)
    (st : ParseState) (L2 : ℤ)
    (hp : netOnZeroDXC_xc_parse_options args = ParseResult.ok st)
    (hc : st.print_corr_diagram = true)
    (hk : netOnZeroDXC_xc_check_sequences sequences st.index_a st.index_b
      st.W st.L st.tau = CheckResult.ok L2)
    (hne : mainCenters ((sequences.getD (st.index_a - 1).toNat []).length)
      L2.toNat st.W.toNat st.tau ≠ []) :
    mainRun gen ker args sequences base
      = RunOutcome.terminated 0 [Event.computeCDiagram,
          Event.outputCorrDiagram (netOnZeroDXC_compute_cdiagram ker
            (List.replicate st.W.toNat (mainDummyVector
              ((sequences.getD (st.index_a - 1).toNat []).length)
              L2.toNat st.W.toNat st.tau))
            sequences (st.index_a - 1).toNat (st.index_b - 1).toNat
            L2.toNat st.W.toNat (decide (0 < st.tau)) st.tau)] := by
  have hfalse := cdiagram_any_isEmpty ker
    (List.replicate st.W.toNat (mainDummyVector
      ((sequences.getD (st.index_a - 1).toNat []).length)
      L2.toNat st.W.toNat st.tau))
    sequences ((st.index_a - 1).toNat) ((st.index_b - 1).toNat)
    L2.toNat st.W.toNat (decide (0 < st.tau)) st.tau hne
  simp only [mainRun, hp, hk]
  split
  · split
    · rename_i hcond
      rw [hfalse, Bool.and_false] at hcond
      cases hcond
    · rfl
  · rename_i hnc
    rw [hc] at hnc
    cases hnc rfl

/-- C10 witness: a correlation-only run (`-C`) on two length-4
sequences stops after printing the one computed diagram, exit 0,
with no surrogate event in the trace. -/
theorem C10_corr_only_stops_early_witness :
    mainRun (fun _ _ => []) (fun _ _ => 0)
      ["-n", "1", "2", "-W", "1", "-L", "2", "-C"]
      [[(0 : ℚ), 0, 0, 0], [0, 0, 0, 0]] 0
      = RunOutcome.terminated 0
          [Event.computeCDiagram, Event.outputCorrDiagram [[0, 0]]] := by
  rw [C10_corr_only_stops_early (fun _ _ => []) (fun _ _ => 0)
      ["-n", "1", "2", "-W", "1", "-L", "2", "-C"]
      [[(0 : ℚ), 0, 0, 0], [0, 0, 0, 0]] 0
      ⟨false, false, true, false, false, 1, 2, -1, 1, 2, 100, "", "", '\t'⟩ 2
      (by decide) (by decide) (by decide) (by decide)]
  decide

/-! ## Claim C4: a non-positive surrogate count is not rejected -/

/-- C4 counterexample: `-M 0` passes option parsing (parsing succeeds
with `M = 0`), and the run is not stopped: it performs zero trials and
terminates with exit status 0 after printing the all-zero p-value
diagram - not a non-zero exit with no output. -/
theorem C4_nonpositive_M_counterexample :
    parsedM ["-n", "1", "2", "-W", "1", "-L", "2", "-M", "0"] = some 0
    ∧ mainRun (fun _ _ => []) (fun _ _ => 0)
        ["-n", "1", "2", "-W", "1", "-L", "2", "-M", "0"]
        [[(0 : ℚ), 0, 0, 0], [0, 0, 0, 0]] 0
      = RunOutcome.terminated 0
          [Event.computeCDiagram, Event.initSurrogateGeneration,
            Event.initSurrogateGeneration,
            Event.outputPValueDiagram [[0, 0]]] := by
  decide

/-- C4 (amended): the surrogate count `M` is never validated.  A run
that reaches the p-value phase with `M ≤ 0` performs zero trials and
terminates with exit status 0, outputting the untouched all-zero
initial p-value diagram. -/
theorem C4_nonpositive_M_amended
    (gen : ℕ → ℕ → List ℚ) (ker : List ℚ → List ℚ → ℚ)
    (args : List String) (sequences : List (List ℚ)) (base : ℕ)
    (st : ParseState) (L2 : ℤ)
    (hp : netOnZeroDXC_xc_parse_options args = ParseResult.ok st)
    (hM : st.M ≤ 0)
    (hc : st.print_corr_diagram = false)
    (hk : netOnZeroDXC_xc_check_sequences sequences st.index_a st.index_b
      st.W st.L st.tau = CheckResult.ok L2)
    (hne : mainCenters ((sequences.getD (st.index_a - 1).toNat []).length)
      L2.toNat st.W.toNat st.tau ≠ []) :
    mainRun gen ker args sequences base
      = RunOutcome.terminated 0
          [Event.computeCDiagram, Event.initSurrogateGeneration,
            Event.initSurrogateGeneration,
            Event.outputPValueDiagram (List.replicate st.W.toNat
              (mainDummyVector ((sequences.getD (st.index_a - 1).toNat []).length)
                L2.toNat st.W.toNat st.tau))] := by
  have hM0 : st.M.toNat = 0 := by omega
  have hfalse := replicate_dummy_any_isEmpty
    ((sequences.getD (st.index_a - 1).toNat []).length) L2.toNat st.W.toNat
    st.tau hne
  simp only [mainRun, hp, hk]
  split
  · rename_i hcc
    rw [hc] at hcc
    cases hcc
  · rw [hM0]
    simp only [trialLoop]
    split
    · rename_i hcond
      rw [hfalse, Bool.and_false] at hcond
      cases hcond
    · rfl

/-- C4 witness: the amended statement at the `-M 0` command line. -/
theorem C4_nonpositive_M_amended_witness :
    mainRun (fun _ _ => []) (fun _ _ => 0)
      ["-n", "1", "2", "-W", "1", "-L", "2", "-M", "0"]
      [[(0 : ℚ), 0, 0, 0], [0, 0, 0, 0]] 0
      = RunOutcome.terminated 0
          [Event.computeCDiagram, Event.initSurrogateGeneration,
            Event.initSurrogateGeneration,
            Event.outputPValueDiagram
              (List.replicate (1 : ℤ).toNat
                (mainDummyVector
                  (([[(0 : ℚ), 0, 0, 0], [0, 0, 0, 0]].getD
                    ((1 : ℤ) - 1).toNat []).length)
                  (2 : ℤ).toNat (1 : ℤ).toNat (-1)))] := by
  rw [C4_nonpositive_M_amended (fun _ _ => []) (fun _ _ => 0)
      ["-n", "1", "2", "-W", "1", "-L", "2", "-M", "0"]
      [[(0 : ℚ), 0, 0, 0], [0, 0, 0, 0]] 0
      ⟨false, false, false, true, false, 1, 2, -1, 1, 2, 0, "", "", '\t'⟩ 2
      (by decide) (by decide) (by decide) (by decide) (by decide)]

/-! ## Claim C9: which validation failures are detected -/

/-- Non-positive column numbers, `W ≤ 0` or `L ≤ 0` always make option
parsing return the error result (the flag fix-up touches no integer
field). -/
theorem parse_validation_fails (args : List String) (st0 : ParseState)
    (h : parseLoop args initialParseState = ParseResult.ok st0)
    (hfail : st0.index_a ≤ 0 ∨ st0.index_b ≤ 0 ∨ st0.W ≤ 0 ∨ st0.L ≤ 0) :
    netOnZeroDXC_xc_parse_options args = ParseResult.error := by
  simp only [netOnZeroDXC_xc_parse_options, h]
  set st1 := (if !st0.compute_pvalue_diagram && !st0.print_corr_diagram then
        { st0 with compute_pvalue_diagram := true }
      else if st0.compute_pvalue_diagram && st0.print_corr_diagram then
        { st0 with print_corr_diagram := false }
      else st0) with hst1
  have hia : st1.index_a = st0.index_a := by
    rw [hst1]; split
    · rfl
    · split <;> rfl
  have hib : st1.index_b = st0.index_b := by
    rw [hst1]; split
    · rfl
    · split <;> rfl
  have hWp : st1.W = st0.W := by
    rw [hst1]; split
    · rfl
    · split <;> rfl
  have hLp : st1.L = st0.L := by
    rw [hst1]; split
    · rfl
    · split <;> rfl
  by_cases h1 : st1.index_a ≤ 0 ∨ st1.index_b ≤ 0
  · rw [if_pos h1]
  · rw [if_neg h1]
    by_cases h2 : st1.W ≤ 0
    · rw [if_pos h2]
    · rw [if_neg h2]
      by_cases h3 : st1.L ≤ 0
      · rw [if_pos h3]
      · exfalso
        rw [hia, hib] at h1
        rw [hWp] at h2
        rw [hLp] at h3
        omega

/-- A column number larger than the number of loaded sequences makes
the sequence check return the error result. -/
theorem check_bounds_error (sequences : List (List ℚ)) (na nb W L tau : ℤ)
    (hna : 0 ≤ na) (hna64 : na < 18446744073709551616)
    (hnb : 0 ≤ nb) (hnb64 : nb < 18446744073709551616)
    (hover : (sequences.length : ℤ) < na ∨ (sequences.length : ℤ) < nb) :
    netOnZeroDXC_xc_check_sequences sequences na nb W L tau
      = CheckResult.error := by
  have hua : usize na = na := Int.emod_eq_of_lt hna hna64
  have hub : usize nb = nb := Int.emod_eq_of_lt hnb hnb64
  simp only [netOnZeroDXC_xc_check_sequences]
  rw [hua, hub]
  have hcond : na > (sequences.length : ℤ) ∨ nb > (sequences.length : ℤ) := by
    omega
  rw [if_pos hcond]

/-- A diagram size `K = floor((N - L*W)/L) - (tau>0?tau:0) < 1` is
detected - and the check returns the error result - provided the
`size_t` subtraction does not wrap (`L*W ≤ N`) and the row the check
actually reads (index `na`, not `na - 1`) has length `N`. -/
theorem check_geometry_error (sequences : List (List ℚ)) (na nb W L tau : ℤ)
    (row : List ℚ) (N : ℤ)
    (hna : 1 ≤ na) (hnale : na ≤ (sequences.length : ℤ))
    (hnb : 1 ≤ nb) (hnble : nb ≤ (sequences.length : ℤ))
    (hlen64 : (sequences.length : ℤ) < 18446744073709551616)
    (hrow : sequences[na.toNat]? = some row)
    (hN : (row.length : ℤ) = N) (hN64 : N < 18446744073709551616)
    (hL : 1 ≤ L) (hL64 : L < 18446744073709551616)
    (hLW : 0 ≤ L * W) (hLWN : L * W ≤ N)
    (hK : (N - L * W) / L - (if tau > 0 then tau else 0) < 1) :
    netOnZeroDXC_xc_check_sequences sequences na nb W L tau
      = CheckResult.error := by
  have hua : usize na = na := Int.emod_eq_of_lt (by omega) (by omega)
  have hub : usize nb = nb := Int.emod_eq_of_lt (by omega) (by omega)
  have hul : usize L = L := Int.emod_eq_of_lt (by omega) (by omega)
  simp only [netOnZeroDXC_xc_check_sequences]
  rw [hua, hub, if_neg (by omega)]
  simp only [hrow]
  have hdiff : ((row.length : ℤ) - L * W).emod 18446744073709551616
      = N - L * W := by
    rw [hN]
    exact Int.emod_eq_of_lt (by omega) (by omega)
  rw [hdiff, hul, if_pos hK]

/-- A parse failure terminates the run with exit status 1 and no
output event. -/
theorem mainRun_parse_error (gen : ℕ → ℕ → List ℚ)
    (ker : List ℚ → List ℚ → ℚ) (args : List String)
    (sequences : List (List ℚ)) (base : ℕ)
    (h : netOnZeroDXC_xc_parse_options args = ParseResult.error) :
    mainRun gen ker args sequences base = RunOutcome.terminated 1 [] := by
  simp only [mainRun, h]

/-- A sequence-check failure terminates the run with exit status 1 and
no output event. -/
theorem mainRun_check_error (gen : ℕ → ℕ → List ℚ)
    (ker : List ℚ → List ℚ → ℚ) (args : List String)
    (sequences : List (List ℚ)) (base : ℕ) (st : ParseState)
    (hp : netOnZeroDXC_xc_parse_options args = ParseResult.ok st)
    (hk : netOnZeroDXC_xc_check_sequences sequences st.index_a st.index_b
      st.W st.L st.tau = CheckResult.error) :
    mainRun gen ker args sequences base = RunOutcome.terminated 1 [] := by
  simp only [mainRun, hp, hk]

/-- C9 counterexample: with two loaded sequences of length 10 and
column numbers 2 1, `W = 1`, `L = 10`, the claimed diagram size is
`floor((10 - 10*1)/10) - 0 = 0 < 1`, a validation failure - but the
run does not terminate with a non-zero exit status: the geometry check
reads `sequences[2]`, one past the last sequence, and the behaviour is
undefined. -/
theorem C9_missed_validation_counterexample :
    mainRun (fun _ _ => []) (fun _ _ => 0)
      ["-n", "2", "1", "-W", "1", "-L", "10"]
      [List.replicate 10 (0 : ℚ), List.replicate 10 0] 0
      = RunOutcome.undefinedBehavior
    ∧ ((10 - 10 * 1) / 10 - 0 < (1 : ℤ)) := by
  decide

/-- C9 (amended): validation failures are detected with exit status 1
and no output, EXCEPT at the boundary of the off-by-one geometry read:
(1) non-positive column numbers, `W ≤ 0` or `L ≤ 0` are rejected by
option parsing; (2) a parse failure terminates the run with exit 1 and
no output event; (3) column numbers exceeding the number of loaded
sequences are rejected by the sequence check; (4) a diagram size
`K < 1` is rejected provided the first column number is at most the
number of sequences, the row the check actually reads (index `na`)
has the stated length, and `L*W` does not exceed it (no `size_t`
wrap-around); (5) a sequence-check failure terminates the run with
exit 1 and no output event.  When `na` equals the number of sequences
the geometry read is out of range and detection is not guaranteed
(see the counterexample). -/
theorem C9_validation_amended :
    (∀ (args : List String) (st0 : ParseState),
      parseLoop args initialParseState = ParseResult.ok st0 →
      (st0.index_a ≤ 0 ∨ st0.index_b ≤ 0 ∨ st0.W ≤ 0 ∨ st0.L ≤ 0) →
      netOnZeroDXC_xc_parse_options args = ParseResult.error)
    ∧ (∀ (gen : ℕ → ℕ → List ℚ) (ker : List ℚ → List ℚ → ℚ)
        (args : List String) (sequences : List (List ℚ)) (base : ℕ),
      netOnZeroDXC_xc_parse_options args = ParseResult.error →
      mainRun gen ker args sequences base = RunOutcome.terminated 1 [])
    ∧ (∀ (sequences : List (List ℚ)) (na nb W L tau : ℤ),
      0 ≤ na → na < 18446744073709551616 →
      0 ≤ nb → nb < 18446744073709551616 →
      ((sequences.length : ℤ) < na ∨ (sequences.length : ℤ) < nb) →
      netOnZeroDXC_xc_check_sequences sequences na nb W L tau
        = CheckResult.error)
    ∧ (∀ (sequences : List (List ℚ)) (na nb W L tau : ℤ) (row : List ℚ)
        (N : ℤ),
      1 ≤ na → na ≤ (sequences.length : ℤ) →
      1 ≤ nb → nb ≤ (sequences.length : ℤ) →
      (sequences.length : ℤ) < 18446744073709551616 →
      sequences[na.toNat]? = some row → (row.length : ℤ) = N →
      N < 18446744073709551616 → 1 ≤ L → L < 18446744073709551616 →
      0 ≤ L * W → L * W ≤ N →
      (N - L * W) / L - (if tau > 0 then tau else 0) < 1 →
      netOnZeroDXC_xc_check_sequences sequences na nb W L tau
        = CheckResult.error)
    ∧ (∀ (gen : ℕ → ℕ → List ℚ) (ker : List ℚ → List ℚ → ℚ)
        (args : List String) (sequences : List (List ℚ)) (base : ℕ)
        (st : ParseState),
      netOnZeroDXC_xc_parse_options args = ParseResult.ok st →
      netOnZeroDXC_xc_check_sequences sequences st.index_a st.index_b
        st.W st.L st.tau = CheckResult.error →
      mainRun gen ker args sequences base = RunOutcome.terminated 1 []) :=
  ⟨parse_validation_fails, mainRun_parse_error, check_bounds_error,
    check_geometry_error, mainRun_check_error⟩

/-- C9 witness: the five amended detection statements, each at a
concrete failing input. -/
theorem C9_validation_amended_witness :
    netOnZeroDXC_xc_parse_options ["-n", "0", "2", "-W", "1", "-L", "2"]
      = ParseResult.error
    ∧ mainRun (fun _ _ => []) (fun _ _ => 0)
        ["-n", "0", "2", "-W", "1", "-L", "2"] [[(0 : ℚ)]] 0
      = RunOutcome.terminated 1 []
    ∧ netOnZeroDXC_xc_check_sequences [[(0 : ℚ)]] 2 1 1 2 0
      = CheckResult.error
    ∧ netOnZeroDXC_xc_check_sequences
        [List.replicate 10 (0 : ℚ), List.replicate 10 0] 1 2 1 10 0
      = CheckResult.error
    ∧ mainRun (fun _ _ => []) (fun _ _ => 0)
        ["-n", "3", "1", "-W", "1", "-L", "10"]
        [List.replicate 10 (0 : ℚ), List.replicate 10 0] 0
      = RunOutcome.terminated 1 [] :=
  ⟨C9_validation_amended.1 ["-n", "0", "2", "-W", "1", "-L", "2"]
      ⟨false, false, false, false, false, 0, 2, -1, 1, 2, 100, "", "", 't'⟩
      (by decide) (by decide),
   C9_validation_amended.2.1 (fun _ _ => []) (fun _ _ => 0)
      ["-n", "0", "2", "-W", "1", "-L", "2"] [[(0 : ℚ)]] 0 (by decide),
   C9_validation_amended.2.2.1 [[(0 : ℚ)]] 2 1 1 2 0
      (by decide) (by decide) (by decide) (by decide) (by decide),
   C9_validation_amended.2.2.2.1
      [List.replicate 10 (0 : ℚ), List.replicate 10 0] 1 2 1 10 0
      (List.replicate 10 (0 : ℚ)) 10
      (by decide) (by decide) (by decide) (by decide) (by decide) (by decide)
      (by decide) (by decide) (by decide) (by decide) (by decide) (by decide)
      (by decide),
   C9_validation_amended.2.2.2.2 (fun _ _ => []) (fun _ _ => 0)
      ["-n", "3", "1", "-W", "1", "-L", "10"]
      [List.replicate 10 (0 : ℚ), List.replicate 10 0] 0
      ⟨false, false, false, true, false, 3, 1, -1, 1, 10, 100, "", "", '\t'⟩
      (by decide) (by decide)⟩
